import Mathlib

/-!
# The CAL compiler interface header `calcl.h`

`Common/Lib/AMD/CAL/8.95/include/calcl.h` is a C header: conditional
compilation directives, two object-like definitions (`CALAPI`, `CALAPIENTRY`),
two enumerations, one function-pointer typedef and eleven function prototypes.

The header is embedded as the list `calcl_h` of its non-comment lines, each
line transcribed into a structured value (comments are removed, as translation
phase 3 of a C compiler does).  On top of that list:

* `prototypes`, `enumNamed`, `fnPtrNamed` select the declarations;
* `enumValues` assigns enumerator values by the C rule (an enumerator without
  initialiser is one more than its predecessor, the first one is `0`);
* `preprocess` runs the conditional-compilation directives of the header on a
  table of definitions and replaces, with rescanning, the defined names among
  the tokens of every prototype that is kept.

The types `CALresult`, `CALuint`, `CALchar`, `CALvoid`, `CALobject`,
`CALimage`, `CALtarget` come from `cal.h`, which is not part of the sources;
they occur here only as type names.
-/

namespace CalCL

/-! ## Data model -/

/-- A type as it is spelled in a declaration: an optional leading `const`,
a type name, and the number of `*` that follow it.  `const CALchar*` is
`⟨true, "CALchar", 1⟩` (pointer to const), `CALobject*` is
`⟨false, "CALobject", 1⟩`, `const CALimage` is `⟨true, "CALimage", 0⟩`. -/
structure CType where
  isConst : Bool
  base : String
  ptr : Nat
deriving DecidableEq, Repr

/-- A named parameter of a prototype or of a function-pointer typedef. -/
structure Param where
  ty : CType
  name : String
deriving DecidableEq, Repr

/-- A function prototype `storage ret conv name(params);`.  `storage` and
`conv` are the tokens standing before and after the return type (in the header
always `CALAPI` and `CALAPIENTRY`).  A parameter list spelled `(void)` is the
empty list. -/
structure Proto where
  storage : List String
  ret : CType
  conv : List String
  name : String
  params : List Param
deriving DecidableEq, Repr

/-- An enumeration `typedef enum tag { items } tyName;`, every item with its
initialiser when it has one. -/
structure EnumDecl where
  tag : String
  tyName : String
  items : List (String × Option Int)
deriving DecidableEq, Repr

/-- A typedef of a pointer to function: `typedef ret (*tyName)(params);`. -/
structure FnPtrTypedef where
  tyName : String
  ret : CType
  params : List Param
deriving DecidableEq, Repr

/-- One non-comment line (or one declaration spanning a few lines) of the
header. -/
inductive Line where
  /-- Directive `#ifdef m` -/
  | ifdefDir (m : String)
  /-- Directive `#ifndef m` -/
  | ifndefDir (m : String)
  /-- Directive `#else` -/
  | elseDir
  /-- Directive `#endif` -/
  | endifDir
  /-- Directive `#define m body` -/
  | defineDir (m : String) (body : List String)
  /-- Directive `#include "file"` -/
  | includeDir (file : String)
  /-- The line `extern "C" {`, opening a C language-linkage block -/
  | linkageOpen
  /-- The line `}` closing the linkage block -/
  | closeBrace
  /-- An enumeration definition -/
  | enumDef (e : EnumDecl)
  /-- A function-pointer typedef -/
  | fnPtrDef (t : FnPtrTypedef)
  /-- A function prototype -/
  | proto (p : Proto)
deriving DecidableEq, Repr

/-! ## Type names used by the header -/

def tVoid : CType := ⟨false, "void", 0⟩
def tCALresult : CType := ⟨false, "CALresult", 0⟩
def tCALuint : CType := ⟨false, "CALuint", 0⟩
def tCALuintPtr : CType := ⟨false, "CALuint", 1⟩
def tCALvoidPtr : CType := ⟨false, "CALvoid", 1⟩
def tConstCALcharPtr : CType := ⟨true, "CALchar", 1⟩
def tConstCharPtr : CType := ⟨true, "char", 1⟩
def tCALobject : CType := ⟨false, "CALobject", 0⟩
def tCALobjectPtr : CType := ⟨false, "CALobject", 1⟩
def tConstCALobjectPtr : CType := ⟨true, "CALobject", 1⟩
def tCALimage : CType := ⟨false, "CALimage", 0⟩
def tConstCALimage : CType := ⟨true, "CALimage", 0⟩
def tCALimagePtr : CType := ⟨false, "CALimage", 1⟩
def tCALtarget : CType := ⟨false, "CALtarget", 0⟩
def tCALlanguage : CType := ⟨false, "CALlanguage", 0⟩
def tCALCLprogramType : CType := ⟨false, "CALCLprogramType", 0⟩
def tCALLogFunction : CType := ⟨false, "CALLogFunction", 0⟩

/-! ## The header, line by line -/

/-- Lines 34-36: `typedef enum CALlanguageEnum { CAL_LANGUAGE_IL=1, } CALlanguage;` -/
def CALlanguageEnum : EnumDecl :=
  { tag := "CALlanguageEnum", tyName := "CALlanguage",
    items := [("CAL_LANGUAGE_IL", some 1)] }

/-- Lines 39-42: `typedef enum CALCLprogramTypeEnum { CAL_PROGRAM_TYPE_PS,
CAL_PROGRAM_TYPE_CS } CALCLprogramType;` -/
def CALCLprogramTypeEnum : EnumDecl :=
  { tag := "CALCLprogramTypeEnum", tyName := "CALCLprogramType",
    items := [("CAL_PROGRAM_TYPE_PS", none), ("CAL_PROGRAM_TYPE_CS", none)] }

/-- Line 44: `typedef void (*CALLogFunction)(const char* msg);` -/
def CALLogFunction : FnPtrTypedef :=
  { tyName := "CALLogFunction", ret := tVoid, params := [⟨tConstCharPtr, "msg"⟩] }

/-- Line 65: `CALAPI CALresult CALAPIENTRY calclGetVersion(CALuint* major,
CALuint* minor, CALuint* imp);` -/
def calclGetVersion : Proto :=
  { storage := ["CALAPI"], ret := tCALresult, conv := ["CALAPIENTRY"],
    name := "calclGetVersion",
    params := [⟨tCALuintPtr, "major"⟩, ⟨tCALuintPtr, "minor"⟩, ⟨tCALuintPtr, "imp"⟩] }

/-- Line 84: `CALAPI CALresult CALAPIENTRY calclCompile(CALobject* obj,
CALlanguage language, const CALchar* source, CALtarget target);` -/
def calclCompile : Proto :=
  { storage := ["CALAPI"], ret := tCALresult, conv := ["CALAPIENTRY"],
    name := "calclCompile",
    params := [⟨tCALobjectPtr, "obj"⟩, ⟨tCALlanguage, "language"⟩,
               ⟨tConstCALcharPtr, "source"⟩, ⟨tCALtarget, "target"⟩] }

/-- Line 101: `CALAPI CALresult CALAPIENTRY calclLink(CALimage* image,
CALobject* obj, CALuint objCount);` -/
def calclLink : Proto :=
  { storage := ["CALAPI"], ret := tCALresult, conv := ["CALAPIENTRY"],
    name := "calclLink",
    params := [⟨tCALimagePtr, "image"⟩, ⟨tCALobjectPtr, "obj"⟩, ⟨tCALuint, "objCount"⟩] }

/-- Line 116: `CALAPI CALresult CALAPIENTRY calclFreeObject(CALobject obj);` -/
def calclFreeObject : Proto :=
  { storage := ["CALAPI"], ret := tCALresult, conv := ["CALAPIENTRY"],
    name := "calclFreeObject",
    params := [⟨tCALobject, "obj"⟩] }

/-- Line 131: `CALAPI CALresult CALAPIENTRY calclFreeImage(CALimage image);` -/
def calclFreeImage : Proto :=
  { storage := ["CALAPI"], ret := tCALresult, conv := ["CALAPIENTRY"],
    name := "calclFreeImage",
    params := [⟨tCALimage, "image"⟩] }

/-- Line 148: `CALAPI void CALAPIENTRY calclDisassembleImage(const CALimage
image, CALLogFunction logfunc);` -/
def calclDisassembleImage : Proto :=
  { storage := ["CALAPI"], ret := tVoid, conv := ["CALAPIENTRY"],
    name := "calclDisassembleImage",
    params := [⟨tConstCALimage, "image"⟩, ⟨tCALLogFunction, "logfunc"⟩] }

/-- Line 167: `CALAPI CALresult CALAPIENTRY calclAssembleObject(CALobject* obj,
CALCLprogramType type, const CALchar* source, CALtarget target);` -/
def calclAssembleObject : Proto :=
  { storage := ["CALAPI"], ret := tCALresult, conv := ["CALAPIENTRY"],
    name := "calclAssembleObject",
    params := [⟨tCALobjectPtr, "obj"⟩, ⟨tCALCLprogramType, "type"⟩,
               ⟨tConstCALcharPtr, "source"⟩, ⟨tCALtarget, "target"⟩] }

/-- Line 183: `CALAPI void CALAPIENTRY calclDisassembleObject(const CALobject*
obj, CALLogFunction logfunc);` -/
def calclDisassembleObject : Proto :=
  { storage := ["CALAPI"], ret := tVoid, conv := ["CALAPIENTRY"],
    name := "calclDisassembleObject",
    params := [⟨tConstCALobjectPtr, "obj"⟩, ⟨tCALLogFunction, "logfunc"⟩] }

/-- Line 200: `CALAPI CALresult CALAPIENTRY calclImageGetSize(CALuint* size,
CALimage image);` -/
def calclImageGetSize : Proto :=
  { storage := ["CALAPI"], ret := tCALresult, conv := ["CALAPIENTRY"],
    name := "calclImageGetSize",
    params := [⟨tCALuintPtr, "size"⟩, ⟨tCALimage, "image"⟩] }

/-- Line 221: `CALAPI CALresult CALAPIENTRY calclImageWrite(CALvoid* buffer,
CALuint size, CALimage image);` -/
def calclImageWrite : Proto :=
  { storage := ["CALAPI"], ret := tCALresult, conv := ["CALAPIENTRY"],
    name := "calclImageWrite",
    params := [⟨tCALvoidPtr, "buffer"⟩, ⟨tCALuint, "size"⟩, ⟨tCALimage, "image"⟩] }

/-- Line 235: `CALAPI const CALchar* CALAPIENTRY calclGetErrorString(void);` -/
def calclGetErrorString : Proto :=
  { storage := ["CALAPI"], ret := tConstCALcharPtr, conv := ["CALAPIENTRY"],
    name := "calclGetErrorString",
    params := [] }

/-- The header `calcl.h`, lines 15 to 242, comments removed. -/
def calcl_h : List Line :=
  [ .ifndefDir "__CALCL_H__",                 -- 15  #ifndef __CALCL_H__
    .defineDir "__CALCL_H__" [],              -- 16  #define __CALCL_H__
    .includeDir "cal.h",                      -- 18  #include "cal.h"
    .ifdefDir "__cplusplus",                  -- 20  #ifdef __cplusplus
    .linkageOpen,                             -- 21  extern "C" {
    .defineDir "CALAPI" [],                   -- 22  #define CALAPI
    .elseDir,                                 -- 23  #else
    .defineDir "CALAPI" ["extern"],           -- 24  #define CALAPI extern
    .endifDir,                                -- 25  #endif
    .ifdefDir "_WIN32",                       -- 27  #ifdef _WIN32
    .defineDir "CALAPIENTRY" ["__stdcall"],   -- 28  #define CALAPIENTRY  __stdcall
    .elseDir,                                 -- 29  #else
    .defineDir "CALAPIENTRY" [],              -- 30  #define CALAPIENTRY
    .endifDir,                                -- 31  #endif
    .enumDef CALlanguageEnum,                 -- 34-36
    .enumDef CALCLprogramTypeEnum,            -- 39-42
    .fnPtrDef CALLogFunction,                 -- 44
    .proto calclGetVersion,                   -- 65
    .proto calclCompile,                      -- 84
    .proto calclLink,                         -- 101
    .proto calclFreeObject,                   -- 116
    .proto calclFreeImage,                    -- 131
    .proto calclDisassembleImage,             -- 148
    .proto calclAssembleObject,               -- 167
    .proto calclDisassembleObject,            -- 183
    .proto calclImageGetSize,                 -- 200
    .proto calclImageWrite,                   -- 221
    .proto calclGetErrorString,               -- 235
    .ifdefDir "__cplusplus",                  -- 237 #ifdef __cplusplus
    .closeBrace,                              -- 238 }
    .endifDir,                                -- 239 #endif
    .endifDir ]                               -- 242 #endif /* __CALCL_H__ */

/-! ## Declarations of the header -/

/-- The function prototypes written in a list of lines, in source order. -/
def protosOf (ls : List Line) : List Proto :=
  ls.filterMap fun l => match l with
    | .proto p => some p
    | _ => none

/-- The enumerations defined in a list of lines, in source order. -/
def enumsOf (ls : List Line) : List EnumDecl :=
  ls.filterMap fun l => match l with
    | .enumDef e => some e
    | _ => none

/-- The function-pointer typedefs of a list of lines, in source order. -/
def fnPtrDefsOf (ls : List Line) : List FnPtrTypedef :=
  ls.filterMap fun l => match l with
    | .fnPtrDef t => some t
    | _ => none

/-- The prototypes of `calcl.h`. -/
def prototypes : List Proto := protosOf calcl_h

/-- The names of the functions declared by `calcl.h`. -/
def declaredNames : List String := prototypes.map (·.name)

/-- The enumeration of `calcl.h` whose typedef name is `n`, if any. -/
def enumNamed (n : String) : Option EnumDecl :=
  (enumsOf calcl_h).find? (·.tyName == n)

/-- The function-pointer typedef of `calcl.h` named `n`, if any. -/
def fnPtrNamed (n : String) : Option FnPtrTypedef :=
  (fnPtrDefsOf calcl_h).find? (·.tyName == n)

/-- Enumerator values by the C rule: an initialiser gives the value, an
enumerator without one is the previous value plus one; `next` is the value an
enumerator without initialiser receives. -/
def enumValuesFrom : Int → List (String × Option Int) → List (String × Int)
  | _, [] => []
  | _, (n, some v) :: rest => (n, v) :: enumValuesFrom (v + 1) rest
  | next, (n, none) :: rest => (n, next) :: enumValuesFrom (next + 1) rest

/-- The enumerators of `e` with their integer values; the first enumerator
without initialiser is `0`. -/
def enumValues (e : EnumDecl) : List (String × Int) :=
  enumValuesFrom 0 e.items

/-! ## Predicates on prototypes -/

/-- The first parameter of `p` has exactly the type `t`. -/
def firstParamIs (t : CType) (p : Proto) : Bool :=
  p.params.head?.map (·.ty) == some t

/-- The last parameter of `p` has exactly the type `t`. -/
def lastParamIs (t : CType) (p : Proto) : Bool :=
  p.params.getLast?.map (·.ty) == some t

/-- Some parameter of `p` has the type name `b` (with any qualifier and any
number of `*`). -/
def hasParamOfBase (b : String) (p : Proto) : Bool :=
  p.params.any (·.ty.base == b)

/-- Some parameter of `p` has exactly the type `t`. -/
def hasParamOfType (t : CType) (p : Proto) : Bool :=
  p.params.any (·.ty == t)

/-- The type name `b` occurs in the signature of `p`, as return type or as
the type of a parameter. -/
def mentionsType (b : String) (p : Proto) : Bool :=
  p.ret.base == b || hasParamOfBase b p

/-- The function `p` takes a value of the type named `b` itself (no `*`),
const-qualified or not. -/
def takesByValue (b : String) (p : Proto) : Bool :=
  p.params.any fun q => q.ty.base == b && q.ty.ptr == 0

/-- The two handle types of the interface. -/
def isHandleName (b : String) : Bool :=
  b == "CALobject" || b == "CALimage"

/-- A handle out-parameter: a pointer to a handle that is not a pointer to
const, so that the callee can store a handle through it. -/
def isHandleOut (t : CType) : Bool :=
  isHandleName t.base && decide (0 < t.ptr) && !t.isConst

/-- The function `p` has a handle out-parameter. -/
def hasHandleOut (p : Proto) : Bool :=
  p.params.any (isHandleOut ·.ty)

/-! ## Conditional compilation and replacement

The directives of the header are run on a table of definitions, and the
tokens of every prototype that is kept are replaced and rescanned as the C
preprocessor does for object-like definitions.  The header itself defines
only object-like names; definitions with parameters are not part of this
model.  The content of `cal.h` is not part of the sources: what its inclusion
does to the table is the parameter `calh` of `ppStep` and `preprocess`. -/

/-- The table of object-like definitions in force: a name with its
replacement tokens, the most recent `#define` first. -/
abbrev Defs := List (String × List String)

/-- The name `m` is defined (`#ifdef m` holds). -/
def isDefined (d : Defs) (m : String) : Bool :=
  d.any (·.1 == m)

/-- The replacement tokens of `m`, when `m` is defined. -/
def lookupDef (d : Defs) (m : String) : Option (List String) :=
  (d.find? (·.1 == m)).map (·.2)

/-- The tokens of a type, in source order: `const`, the type name, the `*`s. -/
def typeTokens (t : CType) : List String :=
  (if t.isConst then ["const"] else []) ++ [t.base] ++ List.replicate t.ptr "*"

/-- The tokens of a parameter list; the empty list is spelled `void`. -/
def paramListTokens : List Param → List String
  | [] => ["void"]
  | [q] => typeTokens q.ty ++ [q.name]
  | q :: r :: qs => typeTokens q.ty ++ [q.name] ++ [","] ++ paramListTokens (r :: qs)

/-- The tokens of a prototype from its name on: `name ( params ) ;`. -/
def sigTokens (p : Proto) : List String :=
  [p.name, "("] ++ paramListTokens p.params ++ [")", ";"]

/-- The tokens of a prototype line, in source order. -/
def Proto.tokens (p : Proto) : List String :=
  p.storage ++ typeTokens p.ret ++ p.conv ++ sigTokens p

/-- Replacement of one token with rescanning.  A defined name is replaced by
its replacement tokens, which are scanned again for defined names; a name is
not replaced again inside its own replacement (`hide` holds the names being
replaced).  `fuel` bounds the nesting of replacements. -/
def expandTok (d : Defs) : Nat → List String → String → List String
  | 0, _, t => [t]
  | fuel + 1, hide, t =>
      if hide.contains t then [t]
      else
        match lookupDef d t with
        | none => [t]
        | some body => body.flatMap fun s => expandTok d fuel (t :: hide) s

/-- Replacement over a token list.  The nesting of replacements cannot exceed
the number of definitions, so the fuel `d.length + 1` is never used up
(`expandTok_fuel_stable`). -/
def expandAll (d : Defs) (ts : List String) : List String :=
  ts.flatMap fun t => expandTok d (d.length + 1) [] t

/-- A prototype as the compiler proper receives it: its tokens after
replacement, and `linkDepth`, the number of `extern "C"` blocks of this header
open around it. -/
structure Emitted where
  linkDepth : Nat
  tokens : List String
deriving DecidableEq, Repr

/-- An open conditional: whether the enclosing region is active, whether the
condition held, and whether its `#else` has been seen. -/
structure Cond where
  parent : Bool
  held : Bool
  elseSeen : Bool
deriving DecidableEq, Repr

/-- State of the preprocessing run.  `conds` has one entry per open
conditional, innermost first; `active` tells whether the current line is
kept. -/
structure PPState where
  defs : Defs
  conds : List Cond
  active : Bool
  linkDepth : Nat
  out : List Emitted
deriving Repr

/-- Process one line.  `none` is a translation error: `#else` or `#endif`
without an open conditional, a second `#else` for one conditional, or a `}`
without an open block.  Only prototypes are collected in `out`; the enum and
typedef lines hold no directive and no defined name of the header, and are
passed over. -/
def ppStep (calh : Defs → Defs) (st : PPState) : Line → Option PPState
  | .ifdefDir m =>
      let c := isDefined st.defs m
      some { st with conds := ⟨st.active, c, false⟩ :: st.conds, active := st.active && c }
  | .ifndefDir m =>
      let c := !isDefined st.defs m
      some { st with conds := ⟨st.active, c, false⟩ :: st.conds, active := st.active && c }
  | .elseDir =>
      match st.conds with
      | [] => none
      | ⟨_, _, true⟩ :: _ => none
      | ⟨par, c, false⟩ :: rest =>
          some { st with conds := ⟨par, c, true⟩ :: rest, active := par && !c }
  | .endifDir =>
      match st.conds with
      | [] => none
      | ⟨par, _, _⟩ :: rest => some { st with conds := rest, active := par }
  | .defineDir m body =>
      if st.active then some { st with defs := (m, body) :: st.defs } else some st
  | .includeDir _ =>
      if st.active then some { st with defs := calh st.defs } else some st
  | .linkageOpen =>
      if st.active then some { st with linkDepth := st.linkDepth + 1 } else some st
  | .closeBrace =>
      if st.active then
        match st.linkDepth with
        | 0 => none
        | n + 1 => some { st with linkDepth := n }
      else some st
  | .enumDef _ => some st
  | .fnPtrDef _ => some st
  | .proto p =>
      if st.active then
        some { st with out := st.out ++ [⟨st.linkDepth, expandAll st.defs p.tokens⟩] }
      else some st

/-- Process the lines in order. -/
def ppRun (calh : Defs → Defs) : PPState → List Line → Option PPState
  | st, [] => some st
  | st, l :: ls =>
      match ppStep calh st l with
      | none => none
      | some st1 => ppRun calh st1 ls

/-- Preprocess a file starting from the table `env` (the predefined and
command-line definitions).  A conditional left open at the end of the file is
an error. -/
def preprocess (calh : Defs → Defs) (env : Defs) (ls : List Line) : Option PPState :=
  match ppRun calh ⟨env, [], true, 0, []⟩ ls with
  | none => none
  | some st => if st.conds.isEmpty then some st else none

/-- The table of definitions on reaching line 20 of `calcl.h` on a first
inclusion: `__CALCL_H__` has been defined and `cal.h` included. -/
def tableAtLine20 (calh : Defs → Defs) (env : Defs) : Defs :=
  calh (("__CALCL_H__", []) :: env)

/-- The table `d` leaves the text of the prototypes alone: neither `extern`
nor `__stdcall` nor any token of a prototype of `calcl.h` other than `CALAPI`
and `CALAPIENTRY` (return type, name, parameters, punctuation) is a defined
name of `d`. -/
def leavesPrototypesAlone (d : Defs) : Bool :=
  !isDefined d "extern" && !isDefined d "__stdcall" &&
  prototypes.all fun p => (typeTokens p.ret ++ sigTokens p).all fun t => !isDefined d t

/-- The prototype `p` as it is emitted when `CALAPI` stands for `a` and
`CALAPIENTRY` for `b`, inside `depth` linkage blocks. -/
def emittedAs (depth : Nat) (a b : List String) (p : Proto) : Emitted :=
  ⟨depth, Proto.tokens { p with storage := a, conv := b }⟩

/-- An emitted prototype has C language linkage: the translation unit is C
(`__cplusplus` is not defined), or the prototype stands inside an
`extern "C"` block. -/
def hasCLinkage (cplusplus : Bool) (e : Emitted) : Bool :=
  !cplusplus || decide (0 < e.linkDepth)

/-- The table holding exactly the chosen configuration flags. -/
def configEnv (cplusplus win32 : Bool) : Defs :=
  (if cplusplus then [("__cplusplus", ["201103L"])] else []) ++
  (if win32 then [("_WIN32", ["1"])] else [])

/-- The ten operations the specification enumerates as declared by the
header (section 1 of the specification, in its order). -/
def specOperations : List String :=
  ["calclCompile", "calclLink", "calclAssembleObject", "calclDisassembleImage",
   "calclImageGetSize", "calclImageWrite", "calclGetErrorString",
   "calclFreeObject", "calclFreeImage", "calclGetVersion"]

/-! ## Auxiliary facts -/

theorem prototypes_eq :
    prototypes =
      [calclGetVersion, calclCompile, calclLink, calclFreeObject, calclFreeImage,
       calclDisassembleImage, calclAssembleObject, calclDisassembleObject,
       calclImageGetSize, calclImageWrite, calclGetErrorString] := by
  rfl

theorem declaredNames_eq :
    declaredNames =
      ["calclGetVersion", "calclCompile", "calclLink", "calclFreeObject",
       "calclFreeImage", "calclDisassembleImage", "calclAssembleObject",
       "calclDisassembleObject", "calclImageGetSize", "calclImageWrite",
       "calclGetErrorString"] := by
  rfl

theorem declaredNames_nodup : declaredNames.Nodup := by
  decide

/-! ## Return types and declared operations -/

/-- C1, as stated, fails: `calclDisassembleImage` is a prototype of the header
and its declared return type is `void`, not `CALresult`; so not every
prototype returns `CALresult`. -/
theorem C1_counterexample :
    calclDisassembleImage ∈ prototypes ∧
    calclDisassembleImage.ret = tVoid ∧
    calclDisassembleImage.ret ≠ tCALresult ∧
    ¬ (∀ p ∈ prototypes, p.ret = tCALresult) := by
  decide

/-- C1, amended: exactly eight of the eleven prototypes of `calcl.h` have
return type `CALresult` (`calclGetVersion`, `calclCompile`, `calclLink`,
`calclFreeObject`, `calclFreeImage`, `calclAssembleObject`,
`calclImageGetSize`, `calclImageWrite`); the other three do not:
`calclDisassembleImage` and `calclDisassembleObject` return `void` and
`calclGetErrorString` returns `const CALchar*`. -/
theorem C1_return_types :
    (prototypes.filter (·.ret == tCALresult)).map (·.name) =
      ["calclGetVersion", "calclCompile", "calclLink", "calclFreeObject",
       "calclFreeImage", "calclAssembleObject", "calclImageGetSize",
       "calclImageWrite"] ∧
    (prototypes.filter (·.ret != tCALresult)).map (fun p => (p.name, p.ret)) =
      [("calclDisassembleImage", tVoid), ("calclDisassembleObject", tVoid),
       ("calclGetErrorString", tConstCALcharPtr)] := by
  decide

/-- C2, as stated, fails: `calclDisassembleObject` is declared by the header
and is not one of the ten enumerated operations; so "declared if and only if
one of the ten" does not hold. -/
theorem C2_counterexample :
    "calclDisassembleObject" ∈ declaredNames ∧
    "calclDisassembleObject" ∉ specOperations ∧
    ¬ (∀ n : String, n ∈ declaredNames ↔ n ∈ specOperations) := by
  refine ⟨by decide, by decide, fun h => ?_⟩
  exact absurd ((h "calclDisassembleObject").mp (by decide)) (by decide)

/-- C2, amended: the header declares exactly eleven functions, with pairwise
different names: a name is declared as a prototype if and only if it is one
of the ten enumerated operations or `calclDisassembleObject`. -/
theorem C2_declared_operations :
    (∀ n : String, n ∈ declaredNames ↔
      (n ∈ specOperations ∨ n = "calclDisassembleObject")) ∧
    declaredNames.length = 11 ∧ declaredNames.Nodup := by
  refine ⟨fun n => ?_, by decide, by decide⟩
  simp only [declaredNames_eq, specOperations, List.mem_cons, List.mem_singleton,
    List.not_mem_nil, or_false]
  tauto

/-! ## Handles -/

/-- C5: the prototypes whose first parameter is `CALobject*` (not const) are
exactly `calclCompile` and `calclAssembleObject`; the only prototype taking a
`CALobject` by value is `calclFreeObject`; the only prototype whose first
parameter is `CALimage*` is `calclLink`; `calclFreeImage` takes a `CALimage`
by value; and apart from the three creating functions no prototype has a
handle out-parameter: every handle-typed parameter of the other eight is
taken by value or through a pointer to const. -/
theorem C5_handle_pairing :
    (prototypes.filter (firstParamIs tCALobjectPtr)).map (·.name) =
      ["calclCompile", "calclAssembleObject"] ∧
    (prototypes.filter (takesByValue "CALobject")).map (·.name) =
      ["calclFreeObject"] ∧
    (prototypes.filter (firstParamIs tCALimagePtr)).map (·.name) =
      ["calclLink"] ∧
    calclFreeImage ∈ prototypes ∧
    calclFreeImage.params.map (·.ty) = [tCALimage] ∧
    takesByValue "CALimage" calclFreeImage = true ∧
    (prototypes.filter hasHandleOut).map (·.name) =
      ["calclCompile", "calclLink", "calclAssembleObject"] ∧
    (∀ p ∈ prototypes,
      p.name ∉ ["calclCompile", "calclAssembleObject", "calclLink"] →
      ∀ q ∈ p.params, isHandleName q.ty.base = true →
        q.ty.ptr = 0 ∨ q.ty.isConst = true) := by
  decide

/-! ## Enumerations and the callback type -/

/-- C6: `CALlanguage` has exactly one enumerator, `CAL_LANGUAGE_IL`, of value
`1`; no enumerator of `CALlanguage` has the value `0`; and `calclCompile` is
the only prototype with a parameter of type `CALlanguage`. -/
theorem C6_CALlanguage :
    enumNamed "CALlanguage" = some CALlanguageEnum ∧
    enumValues CALlanguageEnum = [("CAL_LANGUAGE_IL", 1)] ∧
    (∀ e ∈ enumValues CALlanguageEnum, e.2 ≠ 0) ∧
    (prototypes.filter (hasParamOfBase "CALlanguage")).map (·.name) =
      ["calclCompile"] ∧
    hasParamOfType tCALlanguage calclCompile = true := by
  decide

/-- C7: among the prototypes of `calcl.h`, `calclAssembleObject` is the one
and only function with `CALCLprogramType` as the type of a parameter or as
return type. -/
theorem C7_CALCLprogramType_use :
    (prototypes.filter (mentionsType "CALCLprogramType")).map (·.name) =
      ["calclAssembleObject"] ∧
    hasParamOfType tCALCLprogramType calclAssembleObject = true := by
  decide

/-- C8: `CALCLprogramType` has exactly two enumerators,
`CAL_PROGRAM_TYPE_PS` of value `0` and `CAL_PROGRAM_TYPE_CS` of value `1`
(neither has an initialiser), and two enumerators of equal value are the same
enumerator. -/
theorem C8_CALCLprogramType_values :
    enumNamed "CALCLprogramType" = some CALCLprogramTypeEnum ∧
    CALCLprogramTypeEnum.items.map (·.2) = [none, none] ∧
    enumValues CALCLprogramTypeEnum =
      [("CAL_PROGRAM_TYPE_PS", 0), ("CAL_PROGRAM_TYPE_CS", 1)] ∧
    (∀ a ∈ enumValues CALCLprogramTypeEnum,
      ∀ b ∈ enumValues CALCLprogramTypeEnum, a.2 = b.2 → a.1 = b.1) := by
  decide

/-- C9: `CALLogFunction` is a pointer to a function with exactly one
parameter, of type `const char*`, returning `void`; the prototypes with a
`CALLogFunction` parameter are exactly `calclDisassembleImage` and
`calclDisassembleObject`, and each takes it as its last parameter. -/
theorem C9_CALLogFunction :
    fnPtrNamed "CALLogFunction" = some CALLogFunction ∧
    CALLogFunction.ret = tVoid ∧
    CALLogFunction.params.length = 1 ∧
    CALLogFunction.params.map (·.ty) = [tConstCharPtr] ∧
    (prototypes.filter (hasParamOfBase "CALLogFunction")).map (·.name) =
      ["calclDisassembleImage", "calclDisassembleObject"] ∧
    (∀ p ∈ prototypes, hasParamOfBase "CALLogFunction" p = true →
      lastParamIs tCALLogFunction p = true) := by
  decide

/-! ## Replacement: auxiliary facts -/

theorem lookupDef_eq_none_of_not_defined (d : Defs) (t : String)
    (h : isDefined d t = false) : lookupDef d t = none := by
  induction d with
  | nil => rfl
  | cons e d ih =>
    simp only [isDefined, List.any_cons, Bool.or_eq_false_iff] at h
    simp only [lookupDef, List.find?_cons, h.1]
    exact ih h.2

theorem expandTok_of_undefined (d : Defs) (n : Nat) (hide : List String) (t : String)
    (h : lookupDef d t = none) : expandTok d (n + 1) hide t = [t] := by
  simp [expandTok, h]

theorem expandAll_append (d : Defs) (xs ys : List String) :
    expandAll d (xs ++ ys) = expandAll d xs ++ expandAll d ys := by
  simp [expandAll, List.flatMap_append]

theorem expandAll_of_undefined (d : Defs) (ts : List String)
    (h : ∀ t ∈ ts, lookupDef d t = none) : expandAll d ts = ts := by
  induction ts with
  | nil => rfl
  | cons t ts ih =>
    have h1 : lookupDef d t = none := h t (List.mem_cons_self _ _)
    have h2 : expandAll d ts = ts := ih fun s hs => h s (List.mem_cons_of_mem _ hs)
    have h3 : expandAll d (t :: ts) = expandTok d (d.length + 1) [] t ++ expandAll d ts := by
      simp [expandAll, List.flatMap_cons]
    rw [h3, h2, expandTok_of_undefined d _ _ t h1]
    rfl

theorem expandAll_defined (d : Defs) (m : String) (body : List String)
    (hm : lookupDef d m = some body) (hb : ∀ t ∈ body, lookupDef d t = none) :
    expandAll d [m] = body := by
  cases d with
  | nil => simp [lookupDef] at hm
  | cons e d =>
    have h : ∀ ts : List String, (∀ t ∈ ts, lookupDef (e :: d) t = none) →
        (ts.flatMap fun s => expandTok (e :: d) (d.length + 1) [m] s) = ts := by
      intro ts
      induction ts with
      | nil => intro _; rfl
      | cons t ts ih =>
        intro hts
        rw [List.flatMap_cons, expandTok_of_undefined _ _ _ t (hts t (List.mem_cons_self _ _)),
          ih fun s hs => hts s (List.mem_cons_of_mem _ hs)]
        rfl
    have h0 : expandAll (e :: d) [m] = expandTok (e :: d) (d.length + 1 + 1) [] m := by
      simp [expandAll]
    rw [h0, expandTok]
    simp [hm, h body hb]

theorem mem_names_of_lookupDef (d : Defs) (t : String) (body : List String)
    (h : lookupDef d t = some body) : t ∈ d.map (·.1) := by
  simp only [lookupDef, Option.map_eq_some'] at h
  obtain ⟨e, he, _⟩ := h
  have h1 : e ∈ d := List.mem_of_find?_eq_some he
  have h2 : (e.1 == t) = true := List.find?_some (p := fun x : String × List String => x.1 == t) he
  have h3 : e.1 = t := by simpa using h2
  exact h3 ▸ List.mem_map_of_mem _ h1

/-- One more unit of fuel changes nothing once the fuel exceeds the number of
defined names that are not yet hidden. -/
theorem expandTok_fuel_succ (d : Defs) :
    ∀ (n : Nat) (hide : List String) (t : String),
      ((d.map (·.1)).toFinset \ hide.toFinset).card < n →
      expandTok d n hide t = expandTok d (n + 1) hide t := by
  intro n
  induction n with
  | zero => intro hide t h; exact absurd h (Nat.not_lt_zero _)
  | succ n ih =>
    intro hide t h
    rw [expandTok, expandTok]
    by_cases hh : hide.contains t = true
    · simp only [hh, if_true]
    · simp only [hh]
      cases hl : lookupDef d t with
      | none => rfl
      | some body =>
        have hmem : t ∈ (d.map (·.1)).toFinset := by
          simpa using mem_names_of_lookupDef d t body hl
        have hnot : t ∉ hide.toFinset := by
          simpa using hh
        have hlt : ((d.map (·.1)).toFinset \ (t :: hide).toFinset).card <
            ((d.map (·.1)).toFinset \ hide.toFinset).card := by
          apply Finset.card_lt_card
          rw [Finset.ssubset_iff_of_subset]
          · exact ⟨t, by simp [hmem, hnot], by simp⟩
          · intro x hx
            simp only [Finset.mem_sdiff, List.toFinset_cons, Finset.mem_insert, not_or] at hx ⊢
            exact ⟨hx.1, hx.2.2⟩
        have hn : ((d.map (·.1)).toFinset \ (t :: hide).toFinset).card < n := by omega
        have hfun : (fun s => expandTok d n (t :: hide) s) =
            fun s => expandTok d (n + 1) (t :: hide) s :=
          funext fun s => ih (t :: hide) s hn
        simp only [hfun, if_false]

/-- The fuel `d.length + 1` of `expandAll` is enough: any larger fuel gives
the same replacement. -/
theorem expandTok_fuel_stable (d : Defs) (t : String) (k : Nat) :
    expandTok d (d.length + 1 + k) [] t = expandTok d (d.length + 1) [] t := by
  induction k with
  | zero => rfl
  | succ k ih =>
    rw [← ih]
    symm
    apply expandTok_fuel_succ
    have h1 : ((d.map (·.1)).toFinset \ ([] : List String).toFinset).card ≤
        (d.map (·.1)).toFinset.card := Finset.card_le_card Finset.sdiff_subset
    have h2 : (d.map (·.1)).toFinset.card ≤ (d.map (·.1)).length := List.toFinset_card_le _
    simp only [List.length_map] at h2
    omega

/-! ## Preprocessing the header -/

theorem prototypes_use_CALAPI :
    ∀ p ∈ prototypes, p.storage = ["CALAPI"] ∧ p.conv = ["CALAPIENTRY"] ∧
      ∀ t ∈ typeTokens p.ret ++ sigTokens p, t ≠ "CALAPI" ∧ t ≠ "CALAPIENTRY" := by
  decide

/-- Replacement in a prototype of the header, in a table where `CALAPI` and
`CALAPIENTRY` are the two most recent definitions and the table below them
leaves the prototypes alone. -/
theorem expandAll_header_proto (T : Defs) (a b : List String) (p : Proto)
    (hp : p ∈ prototypes)
    (ha : ∀ t ∈ a, t = "extern") (hb : ∀ t ∈ b, t = "__stdcall")
    (hclean : leavesPrototypesAlone T = true) :
    expandAll (("CALAPIENTRY", b) :: ("CALAPI", a) :: T) p.tokens =
      Proto.tokens { p with storage := a, conv := b } := by
  obtain ⟨hs, hcv, hne⟩ := prototypes_use_CALAPI p hp
  simp only [leavesPrototypesAlone, Bool.and_eq_true, Bool.not_eq_true', List.all_eq_true] at hclean
  obtain ⟨⟨hext, hstd⟩, hrest⟩ := hclean
  have hnone : ∀ t, t ≠ "CALAPI" → t ≠ "CALAPIENTRY" → isDefined T t = false →
      lookupDef (("CALAPIENTRY", b) :: ("CALAPI", a) :: T) t = none := by
    intro t h1 h2 h3
    apply lookupDef_eq_none_of_not_defined
    simp only [isDefined, List.any_cons, Bool.or_eq_false_iff]
    refine ⟨?_, ?_, h3⟩
    · simpa using fun h => h2 h.symm
    · simpa using fun h => h1 h.symm
  have hA : lookupDef (("CALAPIENTRY", b) :: ("CALAPI", a) :: T) "CALAPI" = some a := by
    simp [lookupDef]
  have hB : lookupDef (("CALAPIENTRY", b) :: ("CALAPI", a) :: T) "CALAPIENTRY" = some b := by
    simp [lookupDef]
  have hbody_a : ∀ t ∈ a, lookupDef (("CALAPIENTRY", b) :: ("CALAPI", a) :: T) t = none := by
    intro t ht
    rw [ha t ht]
    exact hnone _ (by decide) (by decide) hext
  have hbody_b : ∀ t ∈ b, lookupDef (("CALAPIENTRY", b) :: ("CALAPI", a) :: T) t = none := by
    intro t ht
    rw [hb t ht]
    exact hnone _ (by decide) (by decide) hstd
  have hsig : ∀ t ∈ typeTokens p.ret ++ sigTokens p,
      lookupDef (("CALAPIENTRY", b) :: ("CALAPI", a) :: T) t = none := by
    intro t ht
    exact hnone t (hne t ht).1 (hne t ht).2 (by simpa using hrest p hp t ht)
  have hret : ∀ t ∈ typeTokens p.ret,
      lookupDef (("CALAPIENTRY", b) :: ("CALAPI", a) :: T) t = none :=
    fun t ht => hsig t (List.mem_append_left _ ht)
  have hsg : ∀ t ∈ sigTokens p,
      lookupDef (("CALAPIENTRY", b) :: ("CALAPI", a) :: T) t = none :=
    fun t ht => hsig t (List.mem_append_right _ ht)
  simp only [Proto.tokens, hs, hcv, expandAll_append]
  rw [expandAll_defined _ _ _ hA hbody_a, expandAll_defined _ _ _ hB hbody_b,
    expandAll_of_undefined _ _ hret, expandAll_of_undefined _ _ hsg]
  rfl

/-- The run of the preprocessor over `calcl.h` on a first inclusion, in a
table that leaves the prototypes alone at line 20. -/
theorem preprocess_calcl_h (calh : Defs → Defs) (env : Defs)
    (hfirst : isDefined env "__CALCL_H__" = false)
    (hclean : leavesPrototypesAlone (tableAtLine20 calh env) = true) :
    ∃ st, preprocess calh env calcl_h = some st ∧
      st.defs =
        ("CALAPIENTRY",
            if isDefined (tableAtLine20 calh env) "_WIN32" then ["__stdcall"] else []) ::
        ("CALAPI",
            if isDefined (tableAtLine20 calh env) "__cplusplus" then [] else ["extern"]) ::
        tableAtLine20 calh env ∧
      st.linkDepth = 0 ∧
      st.out = prototypes.map (emittedAs
        (if isDefined (tableAtLine20 calh env) "__cplusplus" then 1 else 0)
        (if isDefined (tableAtLine20 calh env) "__cplusplus" then [] else ["extern"])
        (if isDefined (tableAtLine20 calh env) "_WIN32" then ["__stdcall"] else [])) := by
  have key := fun a b p hp ha hb =>
    expandAll_header_proto (tableAtLine20 calh env) a b p hp ha hb hclean
  generalize hc : isDefined (tableAtLine20 calh env) "__cplusplus" = cpp at key ⊢
  generalize hw : isDefined (tableAtLine20 calh env) "_WIN32" = win at key ⊢
  simp only [tableAtLine20, isDefined] at hc hw hfirst key
  cases cpp <;> cases win <;>
    simp [preprocess, ppRun, ppStep, calcl_h, isDefined, tableAtLine20, emittedAs,
      prototypes, protosOf, hc, hw, hfirst,
      key _ _ calclGetVersion (by decide), key _ _ calclCompile (by decide),
      key _ _ calclLink (by decide), key _ _ calclFreeObject (by decide),
      key _ _ calclFreeImage (by decide), key _ _ calclDisassembleImage (by decide),
      key _ _ calclAssembleObject (by decide), key _ _ calclDisassembleObject (by decide),
      key _ _ calclImageGetSize (by decide), key _ _ calclImageWrite (by decide),
      key _ _ calclGetErrorString (by decide)]

/-- In the four configurations given by the two flags alone (with a `cal.h`
that leaves the table as it is), preprocessing succeeds, closes every block it
opened, and emits the eleven prototypes with `CALAPI` and `CALAPIENTRY`
replaced as the flags say. -/
theorem preprocess_configEnv (cplusplus win32 : Bool) :
    (preprocess id (configEnv cplusplus win32) calcl_h).map
        (fun st => (st.linkDepth, st.out)) =
      some (0, prototypes.map (emittedAs
        (if cplusplus then 1 else 0)
        (if cplusplus then [] else ["extern"])
        (if win32 then ["__stdcall"] else []))) := by
  cases cplusplus <;> cases win32 <;> rfl

/-- Replacement rescans and reaches every token of a prototype: with
`__stdcall` and `CALresult` themselves defined (as a compiler that spells the
calling convention as an attribute may do), line 116 is emitted with the
attribute and with `int`. -/
theorem preprocess_rescans :
    (preprocess id
        [("__stdcall", ["__attribute__", "(", "(", "__stdcall__", ")", ")"]),
         ("CALresult", ["int"]), ("_WIN32", ["1"])] calcl_h).map
        (fun st => (st.out.get? 3).map (·.tokens)) =
      some (some ["extern", "int", "__attribute__", "(", "(", "__stdcall__", ")", ")",
        "calclFreeObject", "(", "CALobject", "obj", ")", ";"]) := by
  rfl

/-- The four configurations given by the two flags alone satisfy the side
conditions of `preprocess_calcl_h`. -/
theorem configEnv_clean (cplusplus win32 : Bool) :
    isDefined (configEnv cplusplus win32) "__CALCL_H__" = false ∧
    leavesPrototypesAlone (tableAtLine20 id (configEnv cplusplus win32)) = true ∧
    isDefined (tableAtLine20 id (configEnv cplusplus win32)) "__cplusplus" = cplusplus ∧
    isDefined (tableAtLine20 id (configEnv cplusplus win32)) "_WIN32" = win32 := by
  cases cplusplus <;> cases win32 <;> decide

theorem emittedAs_tokens :
    ∀ cplusplus win32 : Bool, ∀ p ∈ prototypes,
      ("__stdcall" ∈ (emittedAs (if cplusplus then 1 else 0)
          (if cplusplus then [] else ["extern"])
          (if win32 then ["__stdcall"] else []) p).tokens ↔ win32 = true) ∧
      ("extern" ∈ (emittedAs (if cplusplus then 1 else 0)
          (if cplusplus then [] else ["extern"])
          (if win32 then ["__stdcall"] else []) p).tokens ↔ cplusplus = false) ∧
      hasCLinkage cplusplus (emittedAs (if cplusplus then 1 else 0)
          (if cplusplus then [] else ["extern"])
          (if win32 then ["__stdcall"] else []) p) = true := by
  decide

/-! ## Calling-convention definitions -/

/-- C10: on a first inclusion of `calcl.h`, for every table of definitions
and every effect of `cal.h` on it such that at line 20 no token of the
prototypes, nor `extern`, nor `__stdcall`, is itself a defined name,
preprocessing succeeds and afterwards `CALAPIENTRY` stands for `__stdcall`
when `_WIN32` is defined at line 20 and for nothing otherwise, `CALAPI` stands
for nothing when `__cplusplus` is defined at line 20 and for `extern`
otherwise; all eleven prototypes are emitted, each with exactly its own tokens
and those two replacements, so with `__stdcall` exactly when `_WIN32` is
defined, and inside one `extern "C"` block exactly when `__cplusplus` is
defined, hence with C linkage in every configuration; and the block is closed
again at the end of the header. -/
theorem C10_calling_convention (calh : Defs → Defs) (env : Defs)
    (hfirst : isDefined env "__CALCL_H__" = false)
    (hclean : leavesPrototypesAlone (tableAtLine20 calh env) = true) :
    ∃ st, preprocess calh env calcl_h = some st ∧
      lookupDef st.defs "CALAPIENTRY" =
        some (if isDefined (tableAtLine20 calh env) "_WIN32" then ["__stdcall"] else []) ∧
      lookupDef st.defs "CALAPI" =
        some (if isDefined (tableAtLine20 calh env) "__cplusplus" then [] else ["extern"]) ∧
      st.linkDepth = 0 ∧
      st.out = prototypes.map (emittedAs
        (if isDefined (tableAtLine20 calh env) "__cplusplus" then 1 else 0)
        (if isDefined (tableAtLine20 calh env) "__cplusplus" then [] else ["extern"])
        (if isDefined (tableAtLine20 calh env) "_WIN32" then ["__stdcall"] else [])) ∧
      ∀ e ∈ st.out,
        ("__stdcall" ∈ e.tokens ↔ isDefined (tableAtLine20 calh env) "_WIN32" = true) ∧
        ("extern" ∈ e.tokens ↔ isDefined (tableAtLine20 calh env) "__cplusplus" = false) ∧
        hasCLinkage (isDefined (tableAtLine20 calh env) "__cplusplus") e = true := by
  obtain ⟨st, hst, hdefs, hdepth, hout⟩ := preprocess_calcl_h calh env hfirst hclean
  refine ⟨st, hst, ?_, ?_, hdepth, hout, ?_⟩
  · rw [hdefs]
    simp [lookupDef]
  · rw [hdefs]
    simp [lookupDef]
  · intro e he
    rw [hout, List.mem_map] at he
    obtain ⟨p, hp, rfl⟩ := he
    exact emittedAs_tokens _ _ p hp

/-- C10 at a concrete input: a C translation unit for Windows (only `_WIN32`
defined, `cal.h` leaving the table as it is).  The header has not been
included before, no token of the prototypes is a defined name, and after
preprocessing `CALAPIENTRY` is `__stdcall`, `CALAPI` is `extern`, and all
eleven prototypes are emitted as `extern ... __stdcall ...` outside any
`extern "C"` block. -/
theorem C10_calling_convention_witness :
    isDefined (configEnv false true) "__CALCL_H__" = false ∧
    leavesPrototypesAlone (tableAtLine20 id (configEnv false true)) = true ∧
    ∃ st, preprocess id (configEnv false true) calcl_h = some st ∧
      lookupDef st.defs "CALAPIENTRY" = some ["__stdcall"] ∧
      lookupDef st.defs "CALAPI" = some ["extern"] ∧
      st.linkDepth = 0 ∧
      st.out = prototypes.map (emittedAs 0 ["extern"] ["__stdcall"]) ∧
      ∀ e ∈ st.out,
        ("__stdcall" ∈ e.tokens ↔ true = true) ∧
        ("extern" ∈ e.tokens ↔ false = false) ∧
        hasCLinkage false e = true :=
  ⟨by decide, by decide,
    C10_calling_convention id (configEnv false true) (by decide) (by decide)⟩

end CalCL
